import Mathlib

/-!
Verification of the matching and session-relay engine of the "Us" chat
server.  The definitions below are a shallow embedding of the JavaScript
source:

* `src/server/utils/validators.js` / `src/server/utils/constants.js`
  (input validation),
* the matching service (`addUser`, `removeUser`, `updateUser`,
  `findMatchingUser`, `createRoom`, `leaveRoom`, text-chat set),
* the socket event handlers for `join-room`, `leave-room` and
  `disconnect`.

JavaScript values that may or may not be strings/arrays are modelled by
the inductive type `JSVal`; the registry (a JS `Map` iterated in
insertion order) is modelled by an association list with unique keys,
where `mapSet` keeps the position of an existing key, exactly as
`Map.prototype.set` does.  `null`/`undefined` optional fields become
`Option`.  Event emission is modelled by a list of `Emit` values
returned next to the new state.
-/

namespace UsChat

/-- Model of the JavaScript values that reach the validators.  Only the
shapes the validators distinguish are needed: strings, arrays, and the
remaining primitive shapes whose only relevant property is truthiness. -/
inductive JSVal where
  | nullV   : JSVal
  | undef   : JSVal
  | boolV   : Bool → JSVal
  | num     : Int → JSVal
  | str     : String → JSVal
  | arr     : List JSVal → JSVal

/-- JavaScript truthiness test (`!v` is `falsy v = true`).  Arrays are
always truthy, the empty string and zero are falsy. -/
def JSVal.falsy : JSVal → Bool
  | .nullV   => true
  | .undef   => true
  | .boolV b => !b
  | .num n   => n == 0
  | .str s   => s.isEmpty
  | .arr _   => false

/-- Model of JavaScript `String.prototype.trim`: strip leading and
trailing whitespace.  (Defined by structural recursion on the character
list; the library `String.trim` is extensionally the same but is defined
by well-founded recursion on byte positions, which the kernel cannot
evaluate.) -/
def jsTrim (s : String) : String :=
  String.mk
    (((s.data.dropWhile Char.isWhitespace).reverse.dropWhile
        Char.isWhitespace).reverse)

/-- VALIDATION_LIMITS.MAX_MESSAGE_LENGTH from `constants.js`. -/
def MAX_MESSAGE_LENGTH : Nat := 500

/-- VALIDATION_LIMITS.MAX_INTERESTS from `constants.js`. -/
def MAX_INTERESTS : Nat := 10

/-- Result record of `validateMessage`. -/
structure MsgValidation where
  isValid : Bool
  message : Option String := none
  error   : Option String := none
deriving Repr, DecidableEq

/-- Embedding of `validateMessage` from `validators.js`:
`!message || typeof message !== 'string'` rejects, then the trimmed
message must be non-empty and at most `MAX_MESSAGE_LENGTH` characters. -/
def validateMessage (message : JSVal) : MsgValidation :=
  if message.falsy then
    { isValid := false, error := some "Message must be a non-empty string" }
  else
    match message with
    | .str s =>
      let trimmedMessage := jsTrim s
      if trimmedMessage.length = 0 then
        { isValid := false, error := some "Message cannot be empty" }
      else if trimmedMessage.length > MAX_MESSAGE_LENGTH then
        { isValid := false, error := some "Message too long (max 500 characters)" }
      else
        { isValid := true, message := some trimmedMessage }
    | _ =>
      { isValid := false, error := some "Message must be a non-empty string" }

/-- Result record of `validateInterests`. -/
structure InterestsValidation where
  isValid   : Bool
  interests : List String := []
  error     : Option String := none
deriving Repr, DecidableEq

/-- Test of `typeof i === 'string' && i.trim().length > 0`, the filter
predicate used on interest entries. -/
def validInterestEntry : JSVal → Bool
  | .str s => 0 < (jsTrim s).length
  | _      => false

/-- The `.map(i => i.trim())` step applied to the surviving entries (all
of them strings after the filter; the non-string arm is dead code). -/
def trimInterestEntry : JSVal → String
  | .str s => jsTrim s
  | _      => ""

/-- Embedding of `validateInterests` from `validators.js`: a falsy
argument (`null`/`undefined`) is accepted with an empty list, a
non-array is rejected, an array longer than `MAX_INTERESTS` is rejected
as a whole, and otherwise the non-empty-after-trim string entries are
kept, trimmed. -/
def validateInterests (interests : JSVal) : InterestsValidation :=
  if interests.falsy then
    { isValid := true, interests := [] }
  else
    match interests with
    | .arr xs =>
      if xs.length > MAX_INTERESTS then
        { isValid := false, error := some "Too many interests (max 10)" }
      else
        { isValid := true,
          interests := (xs.filter validInterestEntry).map trimInterestEntry }
    | _ =>
      { isValid := false, error := some "Interests must be an array" }

/-- A registry entry of the matching service (`onlineUsers` map value):
`interests`, `roomId` (`none` = JS `null` = idle) and `username`. -/
structure User where
  interests : List String
  roomId    : Option String
  username  : String
deriving Repr, DecidableEq

/-- JavaScript truthiness of a nullable string (`roomId` and the
`data.roomId` field of events): `null`/`undefined` and the empty string
are falsy. -/
def truthyStr : Option String → Bool
  | none   => false
  | some s => !s.isEmpty

/-- Lookup in an insertion-ordered association list (JS `Map.get`). -/
def mapGet (m : List (String × User)) (k : String) : Option User :=
  match m with
  | [] => none
  | (k1, v) :: rest => if k1 = k then some v else mapGet rest k

/-- Update in an insertion-ordered association list (JS `Map.set`): an
existing key keeps its position, a new key is appended at the end. -/
def mapSet (m : List (String × User)) (k : String) (v : User) :
    List (String × User) :=
  match m with
  | [] => [(k, v)]
  | (k1, v1) :: rest =>
    if k1 = k then (k, v) :: rest else (k1, v1) :: mapSet rest k v

/-- Deletion from an association list (JS `Map.delete`). -/
def mapDelete (m : List (String × User)) (k : String) :
    List (String × User) :=
  m.filter (fun p => p.1 != k)

/-- Combined server-side mutable state: the matching-service registry
(`onlineUsers` map and `textChatUsers` set, both module-level in the
source) plus the transport-layer socket-room membership, modelled as a
list of (room, socketId) pairs. -/
structure ChatState where
  onlineUsers   : List (String × User)
  textChatUsers : List String
  rooms         : List (String × String)
deriving Repr, DecidableEq

/-- Embedding of `removeUser` from the matching service: deletes the id
from `onlineUsers` and from `textChatUsers` and returns the previous
entry (or `none`, the JS `undefined`). -/
def removeUser (st : ChatState) (socketId : String) :
    ChatState × Option User :=
  let user := mapGet st.onlineUsers socketId
  ({ st with
      onlineUsers := mapDelete st.onlineUsers socketId,
      textChatUsers := st.textChatUsers.filter (fun x => x != socketId) },
   user)

/-- Embedding of `getUser` from the matching service. -/
def getUser (st : ChatState) (socketId : String) : Option User :=
  mapGet st.onlineUsers socketId

/-- Partial update record passed to `updateUser`; only the fields the
server actually sends are modelled (`interests`, `roomId`). A `none`
field is absent from the JS updates object and left unchanged. -/
structure UserUpdates where
  interests : Option (List String) := none
  roomId    : Option (Option String) := none
  username  : Option String := none
deriving Repr, DecidableEq

/-- The `Object.assign(user, updates)` merge restricted to the modelled
fields: a field present in the updates replaces the current value. -/
def applyUpdates (u : User) (upd : UserUpdates) : User :=
  { interests := upd.interests.getD u.interests,
    roomId    := upd.roomId.getD u.roomId,
    username  := upd.username.getD u.username }

/-- Embedding of `updateUser` from the matching service: merges the
updates into the entry when the id is present (keeping its position in
the map) and returns the updated entry; a no-op returning `none` when
the id is absent. -/
def updateUser (st : ChatState) (socketId : String) (upd : UserUpdates) :
    ChatState × Option User :=
  match mapGet st.onlineUsers socketId with
  | none => (st, none)
  | some user =>
    let newUser := applyUpdates user upd
    ({ st with onlineUsers := mapSet st.onlineUsers socketId newUser },
     some newUser)

/-- Embedding of `addToTextChat`: adds the id to the `textChatUsers`
set (JS `Set.add`, idempotent). -/
def addToTextChat (st : ChatState) (socketId : String) : ChatState :=
  if st.textChatUsers.contains socketId then st
  else { st with textChatUsers := st.textChatUsers ++ [socketId] }

/-- Embedding of `isInTextChat`. -/
def isInTextChat (st : ChatState) (socketId : String) : Bool :=
  st.textChatUsers.contains socketId

/-- First pass of `findMatchingUser`: scan the registry in insertion
order for the first entry other than the requester that is idle
(`!user.roomId`), has a non-empty interest list (the
`user.interests && Array.isArray(user.interests)` guards hold by typing
in this model) and shares at least one interest with the requester. -/
def findByInterests (users : List (String × User)) (socketId : String)
    (interests : List String) : Option String :=
  match users with
  | [] => none
  | (id, user) :: rest =>
    if id ≠ socketId ∧ truthyStr user.roomId = false ∧
        0 < user.interests.length ∧
        0 < (user.interests.filter (fun i => interests.contains i)).length then
      some id
    else findByInterests rest socketId interests

/-- Second pass of `findMatchingUser`: the first idle entry other than
the requester, regardless of interests. -/
def findAnyWaiting (users : List (String × User)) (socketId : String) :
    Option String :=
  match users with
  | [] => none
  | (id, user) :: rest =>
    if id ≠ socketId ∧ truthyStr user.roomId = false then some id
    else findAnyWaiting rest socketId

/-- Embedding of `findMatchingUser` from the matching service: interest
pass first, then the fallback pass, then `null`. -/
def findMatchingUser (users : List (String × User)) (socketId : String)
    (interests : List String) : Option String :=
  match findByInterests users socketId interests with
  | some id => some id
  | none => findAnyWaiting users socketId

/-- The `if (user) user.roomId = roomId` step of `createRoom`: sets the
`roomId` of the entry when the id is present, and does nothing when it
is absent. -/
def assignRoom (st : ChatState) (socketId roomId : String) : ChatState :=
  match mapGet st.onlineUsers socketId with
  | some u =>
    let users1 := mapSet st.onlineUsers socketId { u with roomId := some roomId }
    { st with onlineUsers := users1 }
  | none => st

/-- Embedding of `createRoom` from the matching service: derives the
room id from the two socket ids and assigns it to whichever of the two
entries is present in the registry. -/
def createRoom (st : ChatState) (socketId1 socketId2 : String) :
    ChatState × String :=
  let roomId := "chat-" ++ socketId1 ++ "-" ++ socketId2
  (assignRoom (assignRoom st socketId1 roomId) socketId2 roomId, roomId)

/-- Embedding of `leaveRoom` from the matching service: when the id is
present and has a truthy `roomId`, clears it to `null` and returns the
previous room id; otherwise a no-op returning `null`. -/
def leaveRoom (st : ChatState) (socketId : String) :
    ChatState × Option String :=
  match mapGet st.onlineUsers socketId with
  | some user =>
    if truthyStr user.roomId then
      let users1 := mapSet st.onlineUsers socketId { user with roomId := none }
      ({ st with onlineUsers := users1 }, user.roomId)
    else (st, none)
  | none => (st, none)

/-- Outbound events emitted by the handlers.  `userCount` is a
broadcast to every connection; the other constructors carry the
recipient socket id in their first field.  In `userLeft`, the first
`Option` is the `reason` field (absent for text-chat departures) and
the second the `username` field (`none` when the source reads it off an
absent user). -/
inductive Emit where
  | userCount  : Nat → Emit
  | userJoined : String → String → Emit
  | userLeft   : String → Option String → Option String → Emit
  | matchFound : String → String → Bool → List String → Emit
deriving Repr, DecidableEq

/-- Current members of a transport-layer socket room, in join order. -/
def roomMembers (st : ChatState) (room : String) : List String :=
  (st.rooms.filter (fun p => p.1 == room)).map (fun p => p.2)

/-- The socket joins a room (`socket.join`, idempotent). -/
def socketJoin (st : ChatState) (socketId room : String) : ChatState :=
  if st.rooms.contains (room, socketId) then st
  else { st with rooms := st.rooms ++ [(room, socketId)] }

/-- The socket leaves a room (`socket.leave`). -/
def socketLeave (st : ChatState) (socketId room : String) : ChatState :=
  { st with rooms := st.rooms.filter (fun p => p != (room, socketId)) }

/-- Emissions of `socket.to(room).emit(...)`: one event per member of
the room other than the sender. -/
def socketToRoom (st : ChatState) (sender room : String)
    (mk : String → Emit) : List Emit :=
  ((roomMembers st room).filter (fun m => m != sender)).map mk

/-- Emissions of `io.to(room).emit(...)`: one event per member of the
room, the sender not excluded. -/
def ioToRoom (st : ChatState) (room : String) (mk : String → Emit) :
    List Emit :=
  (roomMembers st room).map mk

/-- Payload of the `join-room` event:
`const { roomId: requestedRoomId, interests = [] } = data || {}`. -/
structure JoinData where
  roomId    : Option String := none
  interests : JSVal := JSVal.undef

/-- Payload of the `leave-room` event:
`const { roomId, reason } = data || {}`. -/
structure LeaveData where
  roomId : Option String := none
  reason : Option String := none
deriving Repr, DecidableEq

/-- The destructuring default `interests = []` of the `join-room`
handler: an absent (`undefined`) interests field becomes the empty
array, every other value is passed to validation unchanged. -/
def joinInterestsArg (d : JoinData) : JSVal :=
  match d.interests with
  | JSVal.undef => JSVal.arr []
  | v => v

/-- Embedding of the `join-room` handler of `chatSocket`: look the user
up (dropping the event when absent), validate the interests (dropping
the event on failure), store the validated interests, then either join
the text-chat room or run the video matching logic.  On a match the
requester and the found user both join the new room (every registered
id has a live socket, so the `io.sockets.sockets.get(matchId)` lookup
succeeds) and both receive `match-found`, the found user first with
`initiator: false`, then the requester with `initiator: true`. -/
def joinRoomHandler (st : ChatState) (socketId : String)
    (data : Option JoinData) : ChatState × List Emit :=
  let d := data.getD {}
  let interestsArg := joinInterestsArg d
  match mapGet st.onlineUsers socketId with
  | none => (st, [])
  | some user =>
    let iv := validateInterests interestsArg
    if iv.isValid = false then (st, [])
    else
      let st1 := (updateUser st socketId { interests := some iv.interests }).1
      if d.roomId = some "text-chat" then
        let st2 := (updateUser st1 socketId { roomId := some (some "text-chat") }).1
        let st3 := addToTextChat st2 socketId
        let st4 := socketJoin st3 socketId "text-chat"
        (st4, socketToRoom st4 socketId "text-chat"
                (fun m => Emit.userJoined m user.username))
      else
        match findMatchingUser st1.onlineUsers socketId iv.interests with
        | some matchId =>
          let matchUser := mapGet st1.onlineUsers matchId
          let p := createRoom st1 socketId matchId
          let newRoomId := p.2
          let st3 := socketJoin p.1 socketId newRoomId
          let st4 := socketJoin st3 matchId newRoomId
          (st4,
           [Emit.matchFound matchId newRoomId false iv.interests,
            Emit.matchFound socketId newRoomId true
              ((matchUser.map User.interests).getD [])])
        | none =>
          let st2 := (updateUser st1 socketId { roomId := some none }).1
          (st2, [])

/-- Embedding of the `leave-room` handler of `chatSocket`: look the
user up (dropping the event when absent); if `data.roomId` is truthy
and not the text-chat room, notify the other members of that socket
room with the supplied reason (defaulted to `disconnected`) and leave
the socket room; if it is the text-chat room, notify the others without
a reason and leave; finally clear the leaver's own registry `roomId`
via `matchingService.leaveRoom`. -/
def leaveRoomHandler (st : ChatState) (socketId : String)
    (data : Option LeaveData) : ChatState × List Emit :=
  match mapGet st.onlineUsers socketId with
  | none => (st, [])
  | some user =>
    let d := data.getD {}
    let step1 : ChatState × List Emit :=
      if truthyStr d.roomId = true ∧ d.roomId ≠ some "text-chat" then
        let r := d.roomId.getD ""
        (socketLeave st socketId r,
         socketToRoom st socketId r
           (fun m => Emit.userLeft m (some (d.reason.getD "disconnected"))
                       (some user.username)))
      else if d.roomId = some "text-chat" then
        (socketLeave st socketId "text-chat",
         socketToRoom st socketId "text-chat"
           (fun m => Emit.userLeft m none (some user.username)))
      else (st, [])
    ((leaveRoom step1.1 socketId).1, step1.2)

/-- Embedding of the `disconnect` handler of `chatSocket`.  Per the
transport semantics, the disconnecting socket has already left every
socket room when the handler runs, so the room notification reaches
only the remaining members.  If the user held a truthy non-text-chat
`roomId`, that room is notified with reason `disconnected`; if the user
was in the text-chat set, the text-chat room is notified; then the user
is removed from the registry and the updated count is broadcast. -/
def disconnectHandler (st0 : ChatState) (socketId : String) :
    ChatState × List Emit :=
  let st := { st0 with rooms := st0.rooms.filter (fun p => p.2 != socketId) }
  let user := mapGet st.onlineUsers socketId
  let emitsRoom : List Emit :=
    match user with
    | some u =>
      if truthyStr u.roomId = true ∧ u.roomId ≠ some "text-chat" then
        ioToRoom st (u.roomId.getD "")
          (fun m => Emit.userLeft m (some "disconnected") (some u.username))
      else []
    | none => []
  let emitsText : List Emit :=
    if isInTextChat st socketId then
      ioToRoom st "text-chat"
        (fun m => Emit.userLeft m none (user.map User.username))
    else []
  let st1 := (removeUser st socketId).1
  (st1, emitsRoom ++ emitsText ++ [Emit.userCount st1.onlineUsers.length])

/-- Sample participant paired in room `chat-a-b` (used as concrete
input for witnesses and counterexamples). -/
def sampleA : User :=
  { interests := ["music"], roomId := some "chat-a-b", username := "UserA" }

/-- Sample participant paired with `sampleA` in room `chat-a-b`. -/
def sampleB : User :=
  { interests := ["art"], roomId := some "chat-a-b", username := "UserB" }

/-- Sample state with an established PAIR session between `a` and `b`:
registry and socket-room membership agree on room `chat-a-b`. -/
def statePair : ChatState :=
  { onlineUsers := [("a", sampleA), ("b", sampleB)],
    textChatUsers := [],
    rooms := [("chat-a-b", "a"), ("chat-a-b", "b")] }

/-- Sample idle participant waiting with interest `music`. -/
def sampleW : User :=
  { interests := ["music"], roomId := none, username := "UserW" }

/-- Sample idle participant with no room and no interests. -/
def sampleR : User :=
  { interests := [], roomId := none, username := "UserR" }

/-- Sample state with two idle participants `w` and `r` and no rooms. -/
def stateWait : ChatState :=
  { onlineUsers := [("w", sampleW), ("r", sampleR)],
    textChatUsers := [],
    rooms := [] }

/-- General shape of a server state holding one established PAIR
session: participants `a` and `b` in the registry, both sockets joined
to the session room `r`. -/
def pairState (a b r : String) (ua ub : User) (tc : List String) : ChatState :=
  { onlineUsers := [(a, ua), (b, ub)],
    textChatUsers := tc,
    rooms := [(r, a), (r, b)] }

/-! Helper lemmas about the association-list registry. -/

/-- Reading back the key just written by `mapSet`. -/
theorem mapGet_mapSet_self (m : List (String × User)) (k : String) (v : User) :
    mapGet (mapSet m k v) k = some v := by
  induction m with
  | nil => simp [mapSet, mapGet]
  | cons p rest ih =>
    by_cases h : p.1 = k
    · simp [mapSet, mapGet, h]
    · simp [mapSet, mapGet, h, ih]

/-- `mapSet` leaves every other key unchanged. -/
theorem mapGet_mapSet_ne (m : List (String × User)) (k : String) (v : User)
    (k1 : String) (h : k1 ≠ k) :
    mapGet (mapSet m k v) k1 = mapGet m k1 := by
  induction m with
  | nil => simp [mapSet, mapGet, Ne.symm h]
  | cons p rest ih =>
    by_cases hp : p.1 = k
    · simp [mapSet, mapGet, hp, Ne.symm h]
    · by_cases hp1 : p.1 = k1
      · simp [mapSet, mapGet, hp, hp1, h]
      · simp [mapSet, mapGet, hp, hp1, h, ih]

/-- The key deleted by `mapDelete` is gone. -/
theorem mapGet_mapDelete_self (m : List (String × User)) (k : String) :
    mapGet (mapDelete m k) k = none := by
  induction m with
  | nil => simp [mapDelete, mapGet]
  | cons p rest ih =>
    by_cases h : p.1 = k
    · simpa [mapDelete, mapGet, h] using ih
    · simpa [mapDelete, mapGet, List.filter_cons, h] using ih

/-- `mapDelete` leaves every other key unchanged. -/
theorem mapGet_mapDelete_ne (m : List (String × User)) (k : String)
    (k1 : String) (h : k1 ≠ k) :
    mapGet (mapDelete m k) k1 = mapGet m k1 := by
  induction m with
  | nil => simp [mapDelete, mapGet]
  | cons p rest ih =>
    by_cases hp : p.1 = k
    · simpa [mapDelete, mapGet, List.filter_cons, hp, Ne.symm h] using ih
    · by_cases hp1 : p.1 = k1
      · simp [mapDelete, mapGet, List.filter_cons, hp, hp1, h]
      · simpa [mapDelete, mapGet, List.filter_cons, hp, hp1, h] using ih

/-- Filtering with the same predicate twice equals filtering once. -/
theorem filter_idem {α : Type} (p : α → Bool) (l : List α) :
    (l.filter p).filter p = l.filter p := by
  induction l with
  | nil => rfl
  | cons x rest ih =>
    by_cases h : p x
    · simp [List.filter_cons, h, ih]
    · simp [List.filter_cons, h, ih]

/-- Deleting an already deleted key changes nothing. -/
theorem mapDelete_mapDelete (m : List (String × User)) (k : String) :
    mapDelete (mapDelete m k) k = mapDelete m k :=
  filter_idem _ m

/-- A string distinct from the empty string is not `isEmpty`. -/
theorem isEmpty_false_of_ne (s : String) (h : s ≠ "") : s.isEmpty = false := by
  rcases hb : s.isEmpty with _ | _
  · rfl
  · exact absurd ((String.isEmpty_iff s).mp hb) h

/-- Filter-then-map on interest entries agrees with a single
`filterMap` keeping exactly the trimmed non-empty string entries. -/
theorem interests_filter_map_eq (xs : List JSVal) :
    (xs.filter validInterestEntry).map trimInterestEntry =
      xs.filterMap (fun v =>
        match v with
        | .str s => if (jsTrim s).length = 0 then none else some (jsTrim s)
        | _ => none) := by
  induction xs with
  | nil => rfl
  | cons x rest ih =>
    cases x with
    | str s =>
      rcases Nat.eq_zero_or_pos (jsTrim s).length with h | h
      · simp [validInterestEntry, trimInterestEntry, h, ih]
      · have h0 : ¬ (jsTrim s).length = 0 := Nat.pos_iff_ne_zero.mp h
        simp [validInterestEntry, trimInterestEntry, h, h0, ih]
    | nullV => simp [validInterestEntry, ih]
    | undef => simp [validInterestEntry, ih]
    | boolV b => simp [validInterestEntry, ih]
    | num n => simp [validInterestEntry, ih]
    | arr ys => simp [validInterestEntry, ih]

/-! Helper lemmas about the two passes of `findMatchingUser`. -/

/-- An id returned by the interest pass belongs to another, idle
registry entry sharing at least one interest with the requester. -/
theorem findByInterests_sound (users : List (String × User)) (sid : String)
    (ints : List String) (c : String)
    (h : findByInterests users sid ints = some c) :
    c ≠ sid ∧ ∃ u, (c, u) ∈ users ∧ truthyStr u.roomId = false ∧
      0 < (u.interests.filter (fun i => ints.contains i)).length := by
  induction users with
  | nil => simp [findByInterests] at h
  | cons p rest ih =>
    rw [findByInterests] at h
    split at h
    · rename_i hcond
      obtain ⟨h1, h2, _, h4⟩ := hcond
      obtain ⟨rfl⟩ : p.1 = c := by
        injection h
      exact ⟨h1, p.2, by simp, h2, h4⟩
    · obtain ⟨h1, u, hmem, h2, h3⟩ := ih h
      exact ⟨h1, u, by simp [hmem], h2, h3⟩

/-- An id returned by the fallback pass belongs to another, idle
registry entry. -/
theorem findAnyWaiting_sound (users : List (String × User)) (sid : String)
    (c : String) (h : findAnyWaiting users sid = some c) :
    c ≠ sid ∧ ∃ u, (c, u) ∈ users ∧ truthyStr u.roomId = false := by
  induction users with
  | nil => simp [findAnyWaiting] at h
  | cons p rest ih =>
    rw [findAnyWaiting] at h
    split at h
    · rename_i hcond
      obtain ⟨h1, h2⟩ := hcond
      obtain ⟨rfl⟩ : p.1 = c := by
        injection h
      exact ⟨h1, p.2, by simp, h2⟩
    · obtain ⟨h1, u, hmem, h2⟩ := ih h
      exact ⟨h1, u, by simp [hmem], h2⟩

/-- The fallback pass comes up empty exactly when no registry entry
other than the requester is idle. -/
theorem findAnyWaiting_none_iff (users : List (String × User)) (sid : String) :
    findAnyWaiting users sid = none ↔
      ∀ p ∈ users, ¬(p.1 ≠ sid ∧ truthyStr p.2.roomId = false) := by
  induction users with
  | nil => simp [findAnyWaiting]
  | cons p rest ih =>
    rw [findAnyWaiting]
    constructor
    · intro h
      split at h
      · exact absurd h (by simp)
      · rename_i hcond
        intro q hq
        rcases List.mem_cons.mp hq with rfl | hq1
        · exact hcond
        · exact (ih.mp h) q hq1
    · intro h
      split
      · rename_i hcond
        exact absurd hcond (h p (by simp))
      · exact ih.mpr (fun q hq => h q (by simp [hq]))

/-- Any entry passing the interest-pass guard also passes the
fallback-pass guard, so an interest-pass hit means the fallback pass
cannot come up empty. -/
theorem findAnyWaiting_ne_none_of_findByInterests (users : List (String × User))
    (sid : String) (ints : List String) (c : String)
    (h : findByInterests users sid ints = some c) :
    findAnyWaiting users sid ≠ none := by
  obtain ⟨h1, u, hmem, h2, _⟩ := findByInterests_sound users sid ints c h
  intro hn
  exact (findAnyWaiting_none_iff users sid).mp hn (c, u) hmem ⟨h1, h2⟩

/-! Helper lemmas about `assignRoom`. -/

/-- `assignRoom` on a present id updates exactly that entry. -/
theorem assignRoom_get_self (st : ChatState) (k r : String) (u : User)
    (h : mapGet st.onlineUsers k = some u) :
    mapGet (assignRoom st k r).onlineUsers k = some { u with roomId := some r } := by
  simp [assignRoom, h, mapGet_mapSet_self]

/-- `assignRoom` on an absent id is the identity. -/
theorem assignRoom_absent (st : ChatState) (k r : String)
    (h : mapGet st.onlineUsers k = none) :
    assignRoom st k r = st := by
  simp [assignRoom, h]

/-- `assignRoom` does not touch other keys. -/
theorem assignRoom_get_ne (st : ChatState) (k r k1 : String) (h : k1 ≠ k) :
    mapGet (assignRoom st k r).onlineUsers k1 = mapGet st.onlineUsers k1 := by
  rw [assignRoom]
  split
  · simp [mapGet_mapSet_ne _ _ _ _ h]
  · rfl

/-- `assignRoom` only touches `onlineUsers`. -/
theorem assignRoom_frame (st : ChatState) (k r : String) :
    (assignRoom st k r).textChatUsers = st.textChatUsers ∧
    (assignRoom st k r).rooms = st.rooms := by
  rw [assignRoom]
  split <;> exact ⟨rfl, rfl⟩

/-! Claim theorems. -/

/-- C1 (counterexample): the claim says an interests list with more
than 10 entries is not rejected as a whole; but `validateInterests` on
a concrete 11-entry list of valid interest strings fails validation
outright instead of succeeding with the first 10 entries. -/
theorem validateInterests_over_limit_rejected :
    (validateInterests (JSVal.arr (List.replicate 11 (JSVal.str "a")))).isValid
      = false ∧
    (validateInterests (JSVal.arr (List.replicate 11 (JSVal.str "a")))).interests
      = [] := by
  exact ⟨by decide, by decide⟩

/-- C1 (amended): an interests list with more than 10 entries is
rejected as a whole (validation fails, and the join-room handler drops
the request); only for lists of at most 10 entries does validation
succeed, silently dropping the entries that are not non-empty strings
after trimming and keeping the surviving trimmed entries (at most 10). -/
theorem validateInterests_limit_behavior (xs : List JSVal) :
    (10 < xs.length → (validateInterests (JSVal.arr xs)).isValid = false) ∧
    (xs.length ≤ 10 →
      (validateInterests (JSVal.arr xs)).isValid = true ∧
      (validateInterests (JSVal.arr xs)).interests =
        xs.filterMap (fun v =>
          match v with
          | JSVal.str s => if (jsTrim s).length = 0 then none else some (jsTrim s)
          | _ => none) ∧
      (validateInterests (JSVal.arr xs)).interests.length ≤ 10) := by
  constructor
  · intro h
    simp only [validateInterests, JSVal.falsy, MAX_INTERESTS]
    rw [if_neg (by simp), if_pos h]
  · intro h
    have hn : ¬ xs.length > MAX_INTERESTS := by
      simp only [MAX_INTERESTS]
      omega
    simp only [validateInterests, JSVal.falsy, MAX_INTERESTS]
    rw [if_neg (by simp)]
    rw [if_neg (by simpa [MAX_INTERESTS] using hn)]
    refine ⟨rfl, interests_filter_map_eq xs, ?_⟩
    calc ((xs.filter validInterestEntry).map trimInterestEntry).length
        = (xs.filter validInterestEntry).length := by simp
      _ ≤ xs.length := List.length_filter_le _ _
      _ ≤ 10 := h

/-- C1 (witness): the amended theorem applied to an 11-entry list (the
over-limit branch) and to a 3-entry list with one blank and one
non-string entry (the silent-dropping branch). -/
theorem validateInterests_limit_behavior_witness :
    (validateInterests (JSVal.arr (List.replicate 11 (JSVal.str "b")))).isValid
      = false ∧
    (validateInterests
        (JSVal.arr [JSVal.str " a ", JSVal.num 3, JSVal.str "  "])).isValid
      = true := by
  refine ⟨(validateInterests_limit_behavior _).1 (by decide),
          ((validateInterests_limit_behavior _).2 (by decide)).1⟩

/-- C6: for every string input, `validateMessage` succeeds exactly when
the trimmed length is between 1 and 500 characters, and every
non-string input is rejected; the function is total, so no input raises
an error. -/
theorem validateMessage_correct (s : String) (v : JSVal)
    (hv : ∀ t : String, v ≠ JSVal.str t) :
    ((validateMessage (JSVal.str s)).isValid = true ↔
      1 ≤ (jsTrim s).length ∧ (jsTrim s).length ≤ 500) ∧
    (validateMessage v).isValid = false := by
  constructor
  · by_cases he : s = ""
    · subst he
      exact ⟨fun h => absurd h (by decide), fun h => absurd h (by decide)⟩
    · have he2 : s.isEmpty = false := isEmpty_false_of_ne s he
      simp only [validateMessage, JSVal.falsy, he2, MAX_MESSAGE_LENGTH,
        Bool.false_eq_true, if_false]
      by_cases h0 : (jsTrim s).length = 0
      · rw [if_pos h0]
        constructor
        · intro h
          exact absurd h (by decide)
        · intro h
          omega
      · rw [if_neg h0]
        by_cases h5 : (jsTrim s).length > 500
        · rw [if_pos h5]
          constructor
          · intro h
            exact absurd h (by decide)
          · intro h
            omega
        · rw [if_neg h5]
          constructor
          · intro _
            omega
          · intro _
            rfl
  · cases v with
    | str t => exact absurd rfl (hv t)
    | nullV => rfl
    | undef => rfl
    | boolV b => cases b <;> rfl
    | num n =>
      rcases hf : (JSVal.num n).falsy with _ | _ <;> simp [validateMessage, hf]
    | arr ys => rfl

set_option maxRecDepth 20000 in
/-- C6 (witness): the theorem applied to the string `hi` (accepted), to
the non-string input `7` (rejected) and to a 501-character message
(rejected, its trimmed length exceeding 500). -/
theorem validateMessage_correct_witness :
    (validateMessage (JSVal.str "hi")).isValid = true ∧
    (validateMessage (JSVal.num 7)).isValid = false ∧
    (validateMessage
        (JSVal.str (String.mk (List.replicate 501 (Char.ofNat 97))))).isValid
      = false := by
  have h := validateMessage_correct "hi" (JSVal.num 7)
    (fun t hh => JSVal.noConfusion hh)
  have h501 := validateMessage_correct
    (String.mk (List.replicate 501 (Char.ofNat 97))) (JSVal.num 7)
    (fun t hh => JSVal.noConfusion hh)
  refine ⟨h.1.mpr (by decide), h.2, ?_⟩
  rcases hb : (validateMessage
      (JSVal.str (String.mk (List.replicate 501 (Char.ofNat 97))))).isValid
    with _ | _
  · rfl
  · exact absurd (h501.1.mp hb) (by decide)

/-- C9: a `null` or `undefined` interests argument passes validation
and yields the empty interest list, so a pairing request omitting
interests is treated as one with no interests. -/
theorem validateInterests_absent_ok :
    validateInterests JSVal.nullV
      = { isValid := true, interests := [], error := none } ∧
    validateInterests JSVal.undef
      = { isValid := true, interests := [], error := none } :=
  ⟨rfl, rfl⟩

/-- C7: on a present connection id, `removeUser` removes the entry and
returns it; a second call on the same id returns `none` without an
error and leaves the state exactly as after the first call, and `get`
returns `none` for the removed id. -/
theorem removeUser_idempotent (st : ChatState) (sid : String) (u : User)
    (h : mapGet st.onlineUsers sid = some u) :
    (removeUser st sid).2 = some u ∧
    getUser (removeUser st sid).1 sid = none ∧
    (removeUser (removeUser st sid).1 sid).2 = none ∧
    (removeUser (removeUser st sid).1 sid).1 = (removeUser st sid).1 := by
  refine ⟨by simp [removeUser, h], ?_, ?_, ?_⟩
  · simp [removeUser, getUser, mapGet_mapDelete_self]
  · simp [removeUser, mapGet_mapDelete_self]
  · simp only [removeUser]
    simp [mapDelete_mapDelete, filter_idem]

/-- C7 (witness): the theorem applied to the sample PAIR state at the
present id `a`. -/
theorem removeUser_idempotent_witness :
    (removeUser statePair "a").2 = some sampleA ∧
    getUser (removeUser statePair "a").1 "a" = none ∧
    (removeUser (removeUser statePair "a").1 "a").2 = none ∧
    (removeUser (removeUser statePair "a").1 "a").1 = (removeUser statePair "a").1 :=
  removeUser_idempotent statePair "a" sampleA (by decide)

/-- C8: `updateUser` on an absent connection id is a total no-op that
returns `none` and leaves the whole state unchanged; on a present id it
merges the supplied fields into that entry, returns the merged entry,
and leaves every other entry unchanged. -/
theorem updateUser_spec (st : ChatState) (sid : String) (upd : UserUpdates) :
    (mapGet st.onlineUsers sid = none → updateUser st sid upd = (st, none)) ∧
    (∀ u, mapGet st.onlineUsers sid = some u →
      (updateUser st sid upd).2 = some (applyUpdates u upd) ∧
      getUser (updateUser st sid upd).1 sid = some (applyUpdates u upd) ∧
      (∀ k, k ≠ sid → getUser (updateUser st sid upd).1 k = getUser st k) ∧
      (updateUser st sid upd).1.textChatUsers = st.textChatUsers ∧
      (updateUser st sid upd).1.rooms = st.rooms) := by
  constructor
  · intro h
    simp [updateUser, h]
  · intro u h
    refine ⟨by simp [updateUser, h], ?_, ?_, ?_, ?_⟩
    · simp [updateUser, getUser, h, mapGet_mapSet_self]
    · intro k hk
      simp [updateUser, getUser, h, mapGet_mapSet_ne _ _ _ _ hk]
    · simp [updateUser, h]
    · simp [updateUser, h]

/-- C8 (witness): the theorem applied to the sample PAIR state at the
absent id `zz` (no-op) and at the present id `a` (field merge). -/
theorem updateUser_spec_witness :
    updateUser statePair "zz" { roomId := some none } = (statePair, none) ∧
    (updateUser statePair "a" { roomId := some none }).2 =
      some (applyUpdates sampleA { roomId := some none }) :=
  ⟨(updateUser_spec statePair "zz" { roomId := some none }).1 (by decide),
   ((updateUser_spec statePair "a" { roomId := some none }).2 sampleA
      (by decide)).1⟩

/-- C10: `createRoom` always returns the room id `chat-` ++ a ++ `-` ++
b and assigns it as `roomId` to whichever of the two ids is present in
the registry; an absent id causes no error and no change for that id,
and no entry with any other key (nor the text-chat set or socket
rooms) is changed. -/
theorem createRoom_spec (st : ChatState) (a b : String) :
    (createRoom st a b).2 = "chat-" ++ a ++ "-" ++ b ∧
    (∀ u, mapGet st.onlineUsers b = some u →
      getUser (createRoom st a b).1 b
        = some { u with roomId := some ("chat-" ++ a ++ "-" ++ b) }) ∧
    (a ≠ b → ∀ u, mapGet st.onlineUsers a = some u →
      getUser (createRoom st a b).1 a
        = some { u with roomId := some ("chat-" ++ a ++ "-" ++ b) }) ∧
    (mapGet st.onlineUsers a = none → a ≠ b →
      getUser (createRoom st a b).1 a = none) ∧
    (mapGet st.onlineUsers b = none →
      getUser (createRoom st a b).1 b = mapGet st.onlineUsers b) ∧
    (∀ k, k ≠ a → k ≠ b →
      getUser (createRoom st a b).1 k = getUser st k) ∧
    (createRoom st a b).1.textChatUsers = st.textChatUsers ∧
    (createRoom st a b).1.rooms = st.rooms := by
  refine ⟨rfl, ?_, ?_, ?_, ?_, ?_, ?_, ?_⟩
  · intro u hb
    by_cases hab : a = b
    · subst hab
      rcases ha : mapGet st.onlineUsers a with _ | ua
    -- the two lookups name the same key, so they agree
      · rw [ha] at hb
        cases hb
      · rw [ha] at hb
        injection hb with hb1
        have h1 := assignRoom_get_self st a ("chat-" ++ a ++ "-" ++ a) ua ha
        have h2 := assignRoom_get_self (assignRoom st a ("chat-" ++ a ++ "-" ++ a))
          a ("chat-" ++ a ++ "-" ++ a) _ h1
        rw [← hb1]
        simpa [createRoom, getUser] using h2
    · have h1 : mapGet (assignRoom st a ("chat-" ++ a ++ "-" ++ b)).onlineUsers b
          = some u := by
        rw [assignRoom_get_ne _ _ _ _ (fun hh => hab hh.symm)]
        exact hb
      have h2 := assignRoom_get_self _ b ("chat-" ++ a ++ "-" ++ b) u h1
      simpa [createRoom, getUser] using h2
  · intro hab u ha
    have h1 := assignRoom_get_self st a ("chat-" ++ a ++ "-" ++ b) u ha
    have h2 : mapGet
        (assignRoom (assignRoom st a ("chat-" ++ a ++ "-" ++ b)) b
          ("chat-" ++ a ++ "-" ++ b)).onlineUsers a
        = some { u with roomId := some ("chat-" ++ a ++ "-" ++ b) } := by
      rw [assignRoom_get_ne _ _ _ _ hab]
      exact h1
    simpa [createRoom, getUser] using h2
  · intro ha hab
    have h1 := assignRoom_absent st a ("chat-" ++ a ++ "-" ++ b) ha
    have h2 : mapGet
        (assignRoom (assignRoom st a ("chat-" ++ a ++ "-" ++ b)) b
          ("chat-" ++ a ++ "-" ++ b)).onlineUsers a = none := by
      rw [assignRoom_get_ne _ _ _ _ hab, h1]
      exact ha
    simpa [createRoom, getUser] using h2
  · intro hb
    have h1 : mapGet (assignRoom st a ("chat-" ++ a ++ "-" ++ b)).onlineUsers b
        = none := by
      by_cases hab : a = b
      · subst hab
        rw [assignRoom_absent st a _ hb]
        exact hb
      · rw [assignRoom_get_ne _ _ _ _ (fun hh => hab hh.symm)]
        exact hb
    have h2 := assignRoom_absent _ b ("chat-" ++ a ++ "-" ++ b) h1
    simp [createRoom, getUser, h2, h1, hb]
  · intro k hka hkb
    simp only [createRoom, getUser]
    rw [assignRoom_get_ne _ _ _ _ hkb, assignRoom_get_ne _ _ _ _ hka]
  · have h1 := assignRoom_frame st a ("chat-" ++ a ++ "-" ++ b)
    have h2 := assignRoom_frame (assignRoom st a ("chat-" ++ a ++ "-" ++ b)) b
      ("chat-" ++ a ++ "-" ++ b)
    simp [createRoom, h1.1, h2.1]
  · have h1 := assignRoom_frame st a ("chat-" ++ a ++ "-" ++ b)
    have h2 := assignRoom_frame (assignRoom st a ("chat-" ++ a ++ "-" ++ b)) b
      ("chat-" ++ a ++ "-" ++ b)
    simp [createRoom, h1.2, h2.2]

/-- C10 (witness): the theorem applied to the sample waiting state with
one present id and one absent id. -/
theorem createRoom_spec_witness :
    (createRoom stateWait "w" "zz").2 = "chat-w-zz" ∧
    getUser (createRoom stateWait "w" "zz").1 "w"
      = some { sampleW with roomId := some "chat-w-zz" } ∧
    getUser (createRoom stateWait "w" "zz").1 "r" = some sampleR := by
  have h := createRoom_spec stateWait "w" "zz"
  refine ⟨h.1, ?_, ?_⟩
  · exact (h.2.2.1 (by decide) sampleW (by decide))
  · have := h.2.2.2.2.2.1 "r" (by decide) (by decide)
    rw [this]
    decide

/-- C4: every candidate returned by `findMatchingUser` is distinct from
the requester and idle (its registry `roomId` is falsy); a candidate
returned by the interest pass shares at least one interest with the
requester; and the result is `none` exactly when the registry holds no
idle candidate other than the requester. -/
theorem findMatchingUser_correct (users : List (String × User)) (sid : String)
    (ints : List String) :
    (∀ c, findMatchingUser users sid ints = some c →
      c ≠ sid ∧ ∃ u, (c, u) ∈ users ∧ truthyStr u.roomId = false) ∧
    (∀ c, findByInterests users sid ints = some c →
      ∃ u, (c, u) ∈ users ∧
        0 < (u.interests.filter (fun i => ints.contains i)).length) ∧
    (findMatchingUser users sid ints = none ↔
      ∀ p ∈ users, ¬(p.1 ≠ sid ∧ truthyStr p.2.roomId = false)) := by
  refine ⟨?_, ?_, ?_⟩
  · intro c h
    rw [findMatchingUser] at h
    rcases hfi : findByInterests users sid ints with _ | c1
    · rw [hfi] at h
      exact findAnyWaiting_sound users sid c h
    · rw [hfi] at h
      injection h with h1
      subst h1
      obtain ⟨h1, u, hmem, h2, _⟩ := findByInterests_sound users sid ints c1 hfi
      exact ⟨h1, u, hmem, h2⟩
  · intro c h
    obtain ⟨_, u, hmem, _, h4⟩ := findByInterests_sound users sid ints c h
    exact ⟨u, hmem, h4⟩
  · rw [findMatchingUser]
    rcases hfi : findByInterests users sid ints with _ | c1
    · exact findAnyWaiting_none_iff users sid
    · constructor
      · intro h
        cases h
      · intro h
        have := findAnyWaiting_ne_none_of_findByInterests users sid ints c1 hfi
        exact absurd ((findAnyWaiting_none_iff users sid).mpr h) this

/-- C4 (witness): the theorem applied to a one-entry registry holding
the idle user `w`, requested by `r` with a shared interest. -/
theorem findMatchingUser_correct_witness :
    ("w" ≠ "r" ∧ ∃ u, ("w", u) ∈ [("w", sampleW)] ∧ truthyStr u.roomId = false) ∧
    (∃ u, ("w", u) ∈ [("w", sampleW)] ∧
      0 < (u.interests.filter
            (fun i => (["music"] : List String).contains i)).length) := by
  have h := findMatchingUser_correct [("w", sampleW)] "r" ["music"]
  exact ⟨h.1 "w" (by decide), h.2.1 "w" (by decide)⟩

/-- C2 (counterexample): the claim says that after a member leaves with
reason `skip` both members' `roomId`s become `null`; but at the
concrete PAIR state `statePair`, after `a` leaves with reason `skip`,
the remaining member `b` still has `roomId = some "chat-a-b"`, not
`null`. -/
theorem leaveSkip_remaining_not_cleared :
    (mapGet (leaveRoomHandler statePair "a"
        (some { roomId := some "chat-a-b", reason := some "skip" })).1.onlineUsers
        "b").map User.roomId = some (some "chat-a-b") ∧
    ¬ ((mapGet (leaveRoomHandler statePair "a"
        (some { roomId := some "chat-a-b", reason := some "skip" })).1.onlineUsers
        "b").map User.roomId = some none) :=
  ⟨by decide, by decide⟩

/-- C2 (amended): when a PAIR member issues `leave` with reason `skip`,
the leaving participant's registry `roomId` is cleared to `null` and
the remaining member receives exactly one `user-left` notification
carrying reason `skip`; the remaining member's own registry `roomId` is
NOT cleared by the server (its entry is left unchanged) — its client is
expected to re-enter WAITING itself in reaction to the notification. -/
theorem leaveSkip_behavior (a b r : String) (ua ub : User) (tc : List String)
    (hab : a ≠ b) (hr : ua.roomId = some r) (hrb : ub.roomId = some r)
    (hre : r ≠ "") (hrt : r ≠ "text-chat") :
    (leaveRoomHandler (pairState a b r ua ub tc) a
        (some { roomId := some r, reason := some "skip" })).2
      = [Emit.userLeft b (some "skip") (some ua.username)] ∧
    getUser (leaveRoomHandler (pairState a b r ua ub tc) a
        (some { roomId := some r, reason := some "skip" })).1 a
      = some { ua with roomId := none } ∧
    getUser (leaveRoomHandler (pairState a b r ua ub tc) a
        (some { roomId := some r, reason := some "skip" })).1 b
      = some ub := by
  have hba : b ≠ a := fun hh => hab hh.symm
  have hie : r.isEmpty = false := isEmpty_false_of_ne r hre
  refine ⟨?_, ?_, ?_⟩ <;>
    simp [leaveRoomHandler, leaveRoom, pairState, mapGet, socketLeave,
      socketToRoom, roomMembers, truthyStr, getUser, hie, hrt, hab, hba, hr,
      mapGet_mapSet_self, mapGet_mapSet_ne]

/-- C2 (witness): the amended theorem applied to the concrete PAIR
state `statePair` with leaver `a`. -/
theorem leaveSkip_behavior_witness :
    (leaveRoomHandler (pairState "a" "b" "chat-a-b" sampleA sampleB []) "a"
        (some { roomId := some "chat-a-b", reason := some "skip" })).2
      = [Emit.userLeft "b" (some "skip") (some "UserA")] ∧
    getUser (leaveRoomHandler (pairState "a" "b" "chat-a-b" sampleA sampleB []) "a"
        (some { roomId := some "chat-a-b", reason := some "skip" })).1 "a"
      = some { sampleA with roomId := none } ∧
    getUser (leaveRoomHandler (pairState "a" "b" "chat-a-b" sampleA sampleB []) "a"
        (some { roomId := some "chat-a-b", reason := some "skip" })).1 "b"
      = some sampleB := by
  have h := leaveSkip_behavior "a" "b" "chat-a-b" sampleA sampleB []
    (by decide) (by decide) (by decide) (by decide) (by decide)
  exact h

/-- C3 (counterexample): the claim says the remaining member's `roomId`
is left cleared (`null`) after the peer disconnects; but at the
concrete PAIR state `statePair`, after `a` disconnects, the remaining
member `b` still has `roomId = some "chat-a-b"`, not `null`. -/
theorem disconnect_remaining_not_cleared :
    (mapGet (disconnectHandler statePair "a").1.onlineUsers "b").map User.roomId
      = some (some "chat-a-b") ∧
    ¬ ((mapGet (disconnectHandler statePair "a").1.onlineUsers "b").map
        User.roomId = some none) :=
  ⟨by decide, by decide⟩

/-- C3 (amended): when one member of a PAIR session disconnects, the
disconnecting participant is removed from the registry, and exactly one
`user-left` event with reason `disconnected` is emitted to the
remaining member (followed only by the user-count broadcast); the
remaining member's registry entry — including its `roomId`, which keeps
the pair's room id — is left unchanged, not cleared. -/
theorem disconnect_pair_behavior (a b r : String) (ua ub : User)
    (tc : List String) (hab : a ≠ b) (hr : ua.roomId = some r)
    (hrb : ub.roomId = some r) (hre : r ≠ "") (hrt : r ≠ "text-chat")
    (htc : tc.contains a = false) :
    (disconnectHandler (pairState a b r ua ub tc) a).2
      = [Emit.userLeft b (some "disconnected") (some ua.username),
         Emit.userCount 1] ∧
    getUser (disconnectHandler (pairState a b r ua ub tc) a).1 a = none ∧
    getUser (disconnectHandler (pairState a b r ua ub tc) a).1 b = some ub := by
  have hba : b ≠ a := fun hh => hab hh.symm
  have hie : r.isEmpty = false := isEmpty_false_of_ne r hre
  refine ⟨?_, ?_, ?_⟩ <;>
    simp [disconnectHandler, pairState, mapGet, removeUser, mapDelete,
      ioToRoom, roomMembers, isInTextChat, truthyStr, getUser, hie, hrt,
      hab, hba, hr, htc]

/-- C3 (witness): the amended theorem applied to the concrete PAIR
state `statePair` with `a` disconnecting. -/
theorem disconnect_pair_behavior_witness :
    (disconnectHandler (pairState "a" "b" "chat-a-b" sampleA sampleB []) "a").2
      = [Emit.userLeft "b" (some "disconnected") (some "UserA"),
         Emit.userCount 1] ∧
    getUser (disconnectHandler (pairState "a" "b" "chat-a-b" sampleA sampleB [])
        "a").1 "a" = none ∧
    getUser (disconnectHandler (pairState "a" "b" "chat-a-b" sampleA sampleB [])
        "a").1 "b" = some sampleB := by
  have h := disconnect_pair_behavior "a" "b" "chat-a-b" sampleA sampleB []
    (by decide) (by decide) (by decide) (by decide) (by decide) (by decide)
  exact h

/-- C5: whenever a non-text-chat `join-room` request with valid
interests finds a match, the handler emits exactly two `match-found`
events: one to the discovered counterpart with `initiator = false` and
one to the requester with `initiator = true` — so exactly one
participant is designated initiator and it is always the requester. -/
theorem joinRoom_initiator_is_requester (st : ChatState) (sid : String)
    (d : JoinData) (user : User) (m : String)
    (hu : mapGet st.onlineUsers sid = some user)
    (ht : d.roomId ≠ some "text-chat")
    (hv : (validateInterests (joinInterestsArg d)).isValid = true)
    (hm : findMatchingUser
        (updateUser st sid
          { interests := some (validateInterests (joinInterestsArg d)).interests }).1.onlineUsers
        sid (validateInterests (joinInterestsArg d)).interests = some m) :
    (joinRoomHandler st sid (some d)).2 =
      [Emit.matchFound m ("chat-" ++ sid ++ "-" ++ m) false
         (validateInterests (joinInterestsArg d)).interests,
       Emit.matchFound sid ("chat-" ++ sid ++ "-" ++ m) true
         (((mapGet (updateUser st sid
             { interests := some (validateInterests (joinInterestsArg d)).interests }).1.onlineUsers
             m).map User.interests).getD [])] := by
  simp only [joinRoomHandler, Option.getD, hu, hv, ht, hm, Bool.true_eq_false,
    if_false, if_neg ht, createRoom]

/-- C5 (witness): the theorem applied to the concrete waiting state
`stateWait`, where `r` requests a pairing with interest `music` and is
matched to the waiting `w`: the requester `r` gets `initiator = true`,
the counterpart `w` gets `initiator = false`. -/
theorem joinRoom_initiator_witness :
    (joinRoomHandler stateWait "r"
        (some { roomId := none, interests := JSVal.arr [JSVal.str "music"] })).2
      = [Emit.matchFound "w" "chat-r-w" false ["music"],
         Emit.matchFound "r" "chat-r-w" true ["music"]] := by
  have h := joinRoom_initiator_is_requester stateWait "r"
    { roomId := none, interests := JSVal.arr [JSVal.str "music"] }
    sampleR "w" (by decide) (by decide) (by decide) (by decide)
  simpa using h

end UsChat
